import Mathlib

/-!
Verification of the MAS Coordinator repository: a shallow embedding of the
routing-and-synthesis pipeline (task/agent.py), the stateful UMS agent gateway
(task/coordination/ums_agent.py) and the message adapter, together with proofs
of the frozen claims about them.
-/

namespace MAS


/-- Python exception kinds that can arise in the embedded code paths. -/
inductive PyErr where
  | typeError
  | indexError
  | keyError
  | attributeError
  | jsonDecodeError
  | validationError
  | transportError
deriving DecidableEq, Repr

/-- JSON values, as produced by a successful json.loads call. Numbers are
modelled as integers; no claim depends on float semantics. Objects are the
parsed dict: keys are unique by construction of the JSON parser. -/
inductive JVal where
  | null
  | bool (b : Bool)
  | num (n : Int)
  | str (s : String)
  | arr (xs : List JVal)
  | obj (fields : List (String × JVal))

/-- Python truthiness of a JSON value (used by the "if content:" guard). -/
def jTruthy : JVal → Bool
  | JVal.null => false
  | JVal.bool b => b
  | JVal.num n => n != 0
  | JVal.str s => !s.isEmpty
  | JVal.arr xs => !xs.isEmpty
  | JVal.obj fs => !fs.isEmpty

/-- Is the value the Python string k (element comparison for "k in list"). -/
def isStrEq (k : String) : JVal → Bool
  | JVal.str s => s == k
  | _ => false

/-- Substring test on character lists (Python "needle in haystack" for str). -/
def subOf (needle : List Char) : List Char → Bool
  | [] => needle.isEmpty
  | c :: rest => List.isPrefixOf needle (c :: rest) || subOf needle rest

/-- Python membership test "k in v": dict keys, list elements, substring for
strings; TypeError on non-iterable values. -/
def pyContains (k : String) (v : JVal) : Except PyErr Bool :=
  match v with
  | JVal.obj fields => Except.ok (List.lookup k fields).isSome
  | JVal.arr xs => Except.ok (xs.any (isStrEq k))
  | JVal.str s => Except.ok (subOf k.toList s.toList)
  | _ => Except.error PyErr.typeError

/-- Python subscript v[k] with a string key: dict lookup; TypeError on lists
and strings (indices must be integers), and on scalars. -/
def pySubscript (v : JVal) (k : String) : Except PyErr JVal :=
  match v with
  | JVal.obj fields =>
    match List.lookup k fields with
    | some w => Except.ok w
    | none => Except.error PyErr.keyError
  | _ => Except.error PyErr.typeError

/-- Python subscript v[0]: list head or IndexError; first character of a
string; KeyError on a dict without an integer key; TypeError on scalars. -/
def pyIndexZero (v : JVal) : Except PyErr JVal :=
  match v with
  | JVal.arr [] => Except.error PyErr.indexError
  | JVal.arr (x :: _) => Except.ok x
  | JVal.obj _ => Except.error PyErr.keyError
  | JVal.str s =>
    if s.isEmpty then Except.error PyErr.indexError
    else Except.ok (JVal.str (s.take 1))
  | _ => Except.error PyErr.typeError

/-- Python v.get(k, default): only dicts have a get method, every other value
raises AttributeError. -/
def pyGet (v : JVal) (k : String) (default : JVal) : Except PyErr JVal :=
  match v with
  | JVal.obj fields => Except.ok ((List.lookup k fields).getD default)
  | _ => Except.error PyErr.attributeError

/-- Embedding of the body of the try block in UMSAgentGateway.__call_ums_agent
applied to one parsed JSON chunk: checks for a choices key, extracts
choices[0].get("delta", \x7b\x7d).get("content", ""), and if the content is
truthy appends it (a truthy non-string makes the += raise TypeError).
Returns the appended fragment, none when the chunk contributes nothing. -/
def processChunk (chunk : JVal) : Except PyErr (Option String) :=
  match pyContains "choices" chunk with
  | Except.error e => Except.error e
  | Except.ok false => Except.ok none
  | Except.ok true =>
    match pySubscript chunk "choices" with
    | Except.error e => Except.error e
    | Except.ok choices =>
      match pyIndexZero choices with
      | Except.error e => Except.error e
      | Except.ok c0 =>
        match pyGet c0 "delta" (JVal.obj []) with
        | Except.error e => Except.error e
        | Except.ok delta =>
          match pyGet delta "content" (JVal.str "") with
          | Except.error e => Except.error e
          | Except.ok content =>
            if jTruthy content then
              match content with
              | JVal.str s => Except.ok (some s)
              | _ => Except.error PyErr.typeError
            else Except.ok none

/-- One line of the SSE chat stream after framing: the terminator "[DONE]",
a string that parses as JSON, or a non-empty string that is neither. -/
inductive Payload where
  | done
  | json (v : JVal)
  | malformed

/-- A raw line of the chat stream: blank (falsy, skipped before any other
handling) or a payload, recording whether the "data: " prefix was present
(the prefix is stripped and has no further effect). -/
inductive StreamLine where
  | blank
  | payload (hadPrefix : Bool) (body : Payload)

/-- Concatenation of a list of strings (left to right). -/
def concatAll : List String → String
  | [] => ""
  | s :: rest => s ++ concatAll rest

/-- The streaming loop of UMSAgentGateway.__call_ums_agent: skips blank
lines, stops at the [DONE] sentinel, skips lines that raise JSONDecodeError,
and otherwise processes the parsed chunk, accumulating content and appending
each fragment to the stage. Returns the stage appends made so far together
with the accumulated content or the propagated error. -/
def umsStreamGo : List StreamLine → String → List String →
    List String × Except PyErr String
  | [], acc, frags => (frags.reverse, Except.ok acc)
  | l :: rest, acc, frags =>
    match l with
    | StreamLine.blank => umsStreamGo rest acc frags
    | StreamLine.payload _ Payload.done => (frags.reverse, Except.ok acc)
    | StreamLine.payload _ Payload.malformed => umsStreamGo rest acc frags
    | StreamLine.payload _ (Payload.json v) =>
      match processChunk v with
      | Except.error e => (frags.reverse, Except.error e)
      | Except.ok none => umsStreamGo rest acc frags
      | Except.ok (some s) => umsStreamGo rest (acc ++ s) (s :: frags)

/-- The full stream consumption of UMSAgentGateway.__call_ums_agent:
stage appends in order, and the accumulated content (or error). -/
def callUmsAgent (lines : List StreamLine) : List String × Except PyErr String :=
  umsStreamGo lines "" []

/-- Stated from the specification: the content fragment of a parsed event is
its choices[0].delta.content, when that path exists and holds a string. -/
def specFragment (v : JVal) : Option String :=
  match v with
  | JVal.obj fields =>
    match List.lookup "choices" fields with
    | some (JVal.arr (JVal.obj c0 :: _)) =>
      match List.lookup "delta" c0 with
      | some (JVal.obj d) =>
        match List.lookup "content" d with
        | some (JVal.str s) => some s
        | _ => none
      | _ => none
    | _ => none
  | _ => none

/-- Stated from the specification: the content fragment carried by one raw
stream line (only parsed JSON events can carry one). -/
def lineFragment : StreamLine → Option String
  | StreamLine.payload _ (Payload.json v) => specFragment v
  | _ => none

/-- Stated from the specification: the lines of the stream that arrive before
the [DONE] sentinel (or the whole stream when no sentinel occurs). -/
def truncateAtDone : List StreamLine → List StreamLine
  | [] => []
  | StreamLine.payload _ Payload.done :: _ => []
  | l :: rest => l :: truncateAtDone rest

/-- A delta of one chunk of the synthesis model stream (SDK-typed). -/
structure SynthDelta where
  content : Option String
deriving DecidableEq, Repr

/-- One choice of a synthesis stream chunk. -/
structure SynthChoice where
  delta : SynthDelta
deriving DecidableEq, Repr

/-- One chunk of the synthesis model stream. -/
structure SynthChunk where
  choices : List SynthChoice
deriving DecidableEq, Repr

/-- The guard of the synthesis loop in MASCoordinator.__final_response:
the chunk contributes its choices[0].delta.content exactly when the choices
list is truthy (non-empty) and the content is truthy (present, non-empty). -/
def chunkContent (ch : SynthChunk) : Option String :=
  match ch.choices with
  | [] => none
  | c :: _ =>
    match c.delta.content with
    | some s => if s.isEmpty then none else some s
    | none => none

/-- The accumulation loop of MASCoordinator.__final_response: accumulates
truthy content fragments and appends each one to the choice. Returns the
accumulated content and the list of choice appends in order. -/
def finalStreamGo : List SynthChunk → String → List String → String × List String
  | [], acc, frags => (acc, frags.reverse)
  | ch :: rest, acc, frags =>
    match chunkContent ch with
    | none => finalStreamGo rest acc frags
    | some s => finalStreamGo rest (acc ++ s) (s :: frags)

/-- Full consumption of the synthesis model stream. -/
def finalStream (chunks : List SynthChunk) : String × List String :=
  finalStreamGo chunks "" []

/-- Stated from the specification: the content fragment of a synthesis chunk
is its choices[0].delta.content when present. -/
def synthFragment (ch : SynthChunk) : Option String :=
  ch.choices.head?.bind (fun c => c.delta.content)

/-- Message roles used by the coordinator. -/
inductive Role where
  | system
  | user
  | assistant
deriving DecidableEq, Repr

/-- Custom content of a DIAL message: the persisted state blob (a string map,
per the session protocol its tracked value is a string id) and an opaque
marker for attachments. A present CustomContent object is always truthy. -/
structure CustomContent where
  state : Option (List (String × String))
  hasAttachments : Bool
deriving DecidableEq, Repr

/-- A DIAL chat message as the coordinator reads it: role, optional text
content, optional custom content. -/
structure DialMessage where
  role : Role
  content : Option String
  custom_content : Option CustomContent
deriving DecidableEq, Repr

/-- The tracked session key _UMS_CONVERSATION_ID. -/
def UMS_KEY : String := "ums_conversation_id"

/-- Embedding of UMSAgentGateway.__get_ums_conversation_id: scan the history
in order; at the first assistant message whose custom content carries a
truthy state containing the tracked key, return that stored id. -/
def get_ums_conversation_id : List DialMessage → Option String
  | [] => none
  | m :: rest =>
    if m.role = Role.assistant then
      match m.custom_content with
      | some cc =>
        match cc.state with
        | some st =>
          if st.isEmpty then get_ums_conversation_id rest
          else
            match List.lookup UMS_KEY st with
            | some v => some v
            | none => get_ums_conversation_id rest
        | none => get_ums_conversation_id rest
      | none => get_ums_conversation_id rest
    else get_ums_conversation_id rest

/-- Stated from the specification: the session id carried by one message, when
it is an assistant message whose persisted state contains the tracked key. -/
def sessionKeyOf (m : DialMessage) : Option String :=
  if m.role = Role.assistant then
    match m.custom_content with
    | some cc =>
      match cc.state with
      | some st => List.lookup UMS_KEY st
      | none => none
    | none => none
  else none

/-- Stated from the specification: whether the history contains an assistant
message carrying the tracked session key in its persisted state. -/
def historyHasSessionKey (messages : List DialMessage) : Bool :=
  messages.any (fun m => (sessionKeyOf m).isSome)

/-- Observable effects of a coordinator run, in program order. -/
inductive Effect where
  | createConversation
  | setState (st : List (String × String))
  | chatCall (url : String) (content : String)
  | stageAppend (s : String)
  | stageOpen (label : String)
  | stageClose (label : String)
  | choiceAppend (s : String)
  | classifierCall
  | gpaCall
deriving DecidableEq, Repr

/-- Whether an effect is a state write to the choice. -/
def Effect.isSetState : Effect → Bool
  | Effect.setState _ => true
  | _ => false

/-- Environment of one UMS gateway run: the id the session-creation endpoint
returns when called, and the chat endpoint response stream. -/
structure UMSEnv where
  newConversationId : String
  chatStream : List StreamLine

/-- The chat endpoint URL built by UMSAgentGateway.__call_ums_agent. -/
def chatUrl (endpoint conversationId : String) : String :=
  endpoint ++ "/conversations/" ++ conversationId ++ "/chat"

/-- Augmentation of the outgoing user content with coordinator instructions,
applied exactly when the instructions are truthy (present and non-empty). -/
def augmentInstructions (content : String) : Option String → String
  | some instr =>
    if instr.isEmpty then content
    else content ++ "\n\nAdditional context: " ++ instr
  | none => content

/-- The outgoing chat content of a UMS gateway run: the last message text,
absent content read as the empty string, then augmented. -/
def outgoingContent (messages : List DialMessage) (ai : Option String) : String :=
  augmentInstructions (((messages.getLast?).bind (fun m => m.content)).getD "") ai

/-- Embedding of UMSAgentGateway.response: resolve or create the session
(persisting a newly created id into the choice state before anything else),
read the last message (an empty history faults here, after any creation
effects), augment it, issue the chat call and consume the stream. Returns
the effect trace and the resulting assistant message or error. -/
def ums_response (endpoint : String) (env : UMSEnv) (messages : List DialMessage)
    (additional_instructions : Option String) :
    List Effect × Except PyErr DialMessage :=
  let resolved := get_ums_conversation_id messages
  let createEff : List Effect :=
    match resolved with
    | some _ => []
    | none => [Effect.createConversation,
               Effect.setState [(UMS_KEY, env.newConversationId)]]
  let conversation_id := resolved.getD env.newConversationId
  match messages.getLast? with
  | none => (createEff, Except.error PyErr.indexError)
  | some last =>
    let user_content := augmentInstructions (last.content.getD "") additional_instructions
    let streamed := callUmsAgent env.chatStream
    let eff := createEff ++ Effect.chatCall (chatUrl endpoint conversation_id) user_content ::
               streamed.1.map Effect.stageAppend
    match streamed.2 with
    | Except.error e => (eff, Except.error e)
    | Except.ok content =>
      (eff, Except.ok ⟨Role.assistant, some content, none⟩)

/-- An outgoing LLM message entry as built by MASCoordinator.__prepare_messages:
a dict whose optional fields are present exactly when not none (the dict
serialization with exclude_none drops fields holding None). -/
structure OutEntry where
  role : Role
  content : Option String
  custom_content : Option CustomContent
deriving DecidableEq, Repr

/-- The per-message loop of MASCoordinator.__prepare_messages: a user message
with custom content is reduced to its text content (read as empty when
absent); every other message is serialized with its none fields dropped. -/
def prepareLoop : List DialMessage → List OutEntry
  | [] => []
  | m :: rest =>
    (if m.role = Role.user ∧ m.custom_content ≠ none then
      ⟨Role.user, some (m.content.getD ""), none⟩
    else
      ⟨m.role, m.content, m.custom_content⟩) :: prepareLoop rest

/-- Embedding of MASCoordinator.__prepare_messages: the system entry with the
given prompt, followed by the adapted history in order. -/
def prepare_messages (messages : List DialMessage) (system_prompt : String) :
    List OutEntry :=
  ⟨Role.system, some system_prompt, none⟩ :: prepareLoop messages

/-- The routing system prompt of task/prompts.py. -/
def COORDINATION_REQUEST_SYSTEM_PROMPT : String :=
  "\nYou are a Multi-Agent System (MAS) Coordination Assistant. Your role is to analyze user requests and route them to the appropriate specialized agent.\n\n## Available Agents\n\n### GPA (General-Purpose Agent)\nHandles general tasks including:\n- Web search using DuckDuckGo\n- RAG (Retrieval-Augmented Generation) search through uploaded documents (PDF, TXT, CSV, images)\n- Python code execution for calculations, data analysis, chart generation\n- Image generation using DALL-E\n\n### UMS (Users Management Service Agent)\nHandles user management operations:\n- Search for users in the system\n- Create new users\n- Update user information\n- Delete users\n- List users with filters\n\n## Your Task\n1. Analyze the user\x27s request to understand their intent\n2. Determine which agent is best suited to handle the request\n3. Provide additional instructions if needed to clarify the request for the chosen agent\n\n## Decision Guidelines\n- If the request involves user management (creating, searching, updating, deleting users) → UMS\n- If the request involves web search, document analysis, calculations, code execution, or image generation → GPA\n- When in doubt about user-related queries, check if it\x27s about system users (UMS) or general information (GPA)\n\nReturn your decision in the specified JSON format with agent_name and optional additional_instructions.\n"

/-- The synthesis system prompt of task/prompts.py. -/
def FINAL_RESPONSE_SYSTEM_PROMPT : String :=
  "\nYou are working in the finalization step of a Multi-Agent System. Your role is to synthesize the agent\x27s response into a clear, helpful answer for the user.\n\n## Context\nYou will receive:\n1. The original user request\n2. The response from a specialized agent (either GPA or UMS)\n\n## Your Task\n- Synthesize the agent\x27s response into a natural, user-friendly answer\n- Preserve all important information from the agent\x27s response\n- Format the response appropriately (use markdown for structure if helpful)\n- If the agent encountered errors or couldn\x27t complete the task, explain this clearly\n- Do not add information that wasn\x27t provided by the agent\n\n## Guidelines\n- Be concise but complete\n- Maintain a helpful, professional tone\n- If the agent provided structured data, present it in a readable format\n- If images or attachments were generated, reference them appropriately\n"

/-- The two-section composite content built by MASCoordinator.__final_response
from the original content and the agent answer. -/
def compositeContent (original agentAnswer : String) : String :=
  "## Original User Request\n" ++ original ++ "\n\n" ++
  "## Agent Response\n" ++ agentAnswer

/-- Embedding of MASCoordinator.__final_response: adapt the history with the
synthesis prompt, replace the last entry content with the composite (the list
is never empty, but the guard of the source is kept), stream the synthesis
model call forwarding fragments to the choice, and return the assistant
message with the accumulated content. Returns the messages sent to the model,
the choice appends in order, and the returned message. -/
def final_response (messages : List DialMessage) (agent_message : DialMessage)
    (chunks : List SynthChunk) : List OutEntry × List String × DialMessage :=
  let msgs := prepare_messages messages FINAL_RESPONSE_SYSTEM_PROMPT
  let msgs2 :=
    match msgs.getLast? with
    | none => msgs
    | some last =>
      msgs.dropLast ++
        [{ last with
            content := some (compositeContent (last.content.getD "")
              (agent_message.content.getD "")) }]
  let streamed := finalStream chunks
  (msgs2, streamed.2, ⟨Role.assistant, some streamed.1, none⟩)

/-- The routable agents. Modelled from the spec: task/models.py is not among
the sources; section 3 of the specification fixes the decision schema as an
enum over GPA and UMS. -/
inductive AgentName where
  | GPA
  | UMS
deriving DecidableEq, Repr

/-- The structured routing decision. Modelled from the spec: task/models.py is
not among the sources; section 3 of the specification fixes the schema as an
agent name plus optional free-text instructions. -/
structure CoordinationRequest where
  agent_name : AgentName
  additional_instructions : Option String
deriving DecidableEq, Repr

/-- Outcome of the classifier model call followed by JSON parsing and schema
validation: a raised error (transport, JSON decode, or pydantic validation)
or a validated decision. -/
inductive ClassifierOutcome where
  | failure (e : PyErr)
  | success (cr : CoordinationRequest)

/-- Environment of the stateless GPA gateway call. Modelled from the spec:
task/coordination/gpa.py is not among the sources; section 4.3 describes the
stateless variant as streaming its answer into the log surface and returning
the accumulated text as an assistant message, with transport failures fatal. -/
structure GPAEnv where
  fragments : List String
  failure : Option PyErr

/-- Modelled from the spec: the stateless GPA gateway call (section 4.3),
emitting its stage appends and returning the accumulated answer. -/
def gpa_response (env : GPAEnv) : List Effect × Except PyErr DialMessage :=
  match env.failure with
  | some e => ([Effect.gpaCall], Except.error e)
  | none =>
    (Effect.gpaCall :: env.fragments.map Effect.stageAppend,
     Except.ok ⟨Role.assistant, some (concatAll env.fragments), none⟩)

/-- Environment of one coordinator run: classifier outcome, UMS gateway
environment, GPA gateway environment, synthesis stream. -/
structure CoordEnv where
  classifier : ClassifierOutcome
  ums : UMSEnv
  gpa : GPAEnv
  synthChunks : List SynthChunk

/-- Printable name of an agent. Modelled from the spec: the enum values are
the identifiers GPA and UMS. -/
def agentNameStr : AgentName → String
  | AgentName.GPA => "GPA"
  | AgentName.UMS => "UMS"

/-- The label of the coordination stage. -/
def coordStageLabel : String := "🧭 Coordination"

/-- The label of the agent stage. -/
def agentStageLabel (a : AgentName) : String := "🤖 " ++ agentNameStr a ++ " Agent"

/-- The routing decision text appended to the coordination stage; falsy
instructions are rendered as None. -/
def routingText (cr : CoordinationRequest) : String :=
  "Routing to: **" ++ agentNameStr cr.agent_name ++ "**\n" ++
  "Instructions: " ++
  (match cr.additional_instructions with
   | some s => if s.isEmpty then "None" else s
   | none => "None")

/-- Embedding of MASCoordinator.handle_request: open the coordination stage,
run the classifier (a failure propagates at once, with no close of the open
stage), log and close the stage, open the agent stage, dispatch on the
decision to the UMS or GPA gateway (a gateway failure propagates, again with
no close), close the agent stage, and run the synthesis stage streaming to
the choice. Stage open and close operations are those of StageProcessor,
modelled from the spec: task/stage_util.py is not among the sources; the
specification states that close_stage_safely never raises. -/
def handle_request (umsEndpoint : String) (env : CoordEnv)
    (messages : List DialMessage) : List Effect × Except PyErr DialMessage :=
  let eff0 := [Effect.stageOpen coordStageLabel, Effect.classifierCall]
  match env.classifier with
  | ClassifierOutcome.failure e => (eff0, Except.error e)
  | ClassifierOutcome.success cr =>
    let eff1 := eff0 ++ [Effect.stageAppend (routingText cr),
                         Effect.stageClose coordStageLabel]
    let eff2 := eff1 ++ [Effect.stageOpen (agentStageLabel cr.agent_name)]
    let gw :=
      if cr.agent_name = AgentName.UMS then
        ums_response umsEndpoint env.ums messages cr.additional_instructions
      else
        gpa_response env.gpa
    match gw.2 with
    | Except.error e => (eff2 ++ gw.1, Except.error e)
    | Except.ok agent_message =>
      let eff3 := eff2 ++ gw.1 ++ [Effect.stageClose (agentStageLabel cr.agent_name)]
      let fr := final_response messages agent_message env.synthChunks
      (eff3 ++ fr.2.1.map Effect.choiceAppend, Except.ok fr.2.2)

def demoLine1 : StreamLine :=
  StreamLine.payload true (Payload.json (JVal.obj
    [("choices", JVal.arr [JVal.obj [("delta", JVal.obj [("content", JVal.str "Hel")])]])]))

def demoLine2 : StreamLine :=
  StreamLine.payload true (Payload.json (JVal.obj
    [("choices", JVal.arr [JVal.obj [("delta", JVal.obj [("content", JVal.str "lo")])]])]))

def demoLine3 : StreamLine :=
  StreamLine.payload true (Payload.json (JVal.obj [("conversation_id", JVal.str "abc")]))

def demoLines : List StreamLine :=
  [demoLine1, demoLine2, demoLine3, StreamLine.payload true Payload.done,
   StreamLine.payload false Payload.malformed]

def demoChunks : List SynthChunk :=
  [⟨[⟨⟨some "Fin"⟩⟩]⟩, ⟨[]⟩, ⟨[⟨⟨some "al"⟩⟩]⟩]

/-- Stated from the specification and its amendment: the shapes of a parsed
JSON event that carry no content fragment and whose processing cannot fault:
an object without a choices key (such as a session id echo), or one whose
choices[0] is an object whose delta carries no truthy string content, and
non-object events whose membership test is falsy. -/
def nonContentShape (v : JVal) : Bool :=
  match v with
  | JVal.obj fields =>
    match List.lookup "choices" fields with
    | none => true
    | some (JVal.arr (JVal.obj c0 :: _)) =>
      match List.lookup "delta" c0 with
      | none => true
      | some (JVal.obj df) =>
        match List.lookup "content" df with
        | none => true
        | some JVal.null => true
        | some (JVal.bool b) => !b
        | some (JVal.num n) => n == 0
        | some (JVal.str s) => s.isEmpty
        | some (JVal.arr xs) => xs.isEmpty
        | some (JVal.obj gs) => gs.isEmpty
      | some _ => false
    | some _ => false
  | JVal.arr xs => !(xs.any (isStrEq "choices"))
  | JVal.str s => !(subOf "choices".toList s.toList)
  | _ => false

/-- Stated from the amended claim: a stream line that is skipped without any
contribution and without any fault: a blank line, a line that fails to parse
as JSON, or a parsed JSON event of a non-content shape whose field access
cannot fault. -/
def skippableLine (l : StreamLine) : Prop :=
  l = StreamLine.blank ∨
  (∃ b, l = StreamLine.payload b Payload.malformed) ∨
  (∃ b v, l = StreamLine.payload b (Payload.json v) ∧ nonContentShape v = true)

/-- The outcome of the chat stream consumption as the gateway returns it. -/
def umsStreamOutcome (env : UMSEnv) : Except PyErr DialMessage :=
  match (callUmsAgent env.chatStream).2 with
  | Except.error e => Except.error e
  | Except.ok content => Except.ok ⟨Role.assistant, some content, none⟩

/-- An explicit history holding two assistant messages with distinct stored
session ids. -/
def staleHistory : List DialMessage :=
  [⟨Role.assistant, some "x", some ⟨some [(UMS_KEY, "id-first")], false⟩⟩,
   ⟨Role.assistant, some "y", some ⟨some [(UMS_KEY, "id-second")], false⟩⟩]

/-- An assistant message whose content is present but empty. -/
def emptyContentMsg : DialMessage := ⟨Role.assistant, some "", none⟩

/-- An environment whose classifier call returns text that is not valid JSON. -/
def failEnv : CoordEnv :=
  ⟨ClassifierOutcome.failure PyErr.jsonDecodeError, ⟨"cid", []⟩, ⟨[], none⟩, []⟩

/-- Relation between the embedded chunk processing and the specification-side
content fragment: a fragment appended by the code is exactly the fragment the
specification names, and a chunk the code skips carries no fragment or an
empty one. -/
lemma processChunk_spec (v : JVal) :
    (∀ s, processChunk v = Except.ok (some s) → specFragment v = some s) ∧
    (processChunk v = Except.ok none →
      specFragment v = none ∨ specFragment v = some "") := by
  cases v with
  | null => simp [processChunk, pyContains]
  | bool b => simp [processChunk, pyContains]
  | num n => simp [processChunk, pyContains]
  | str s =>
    simp only [processChunk, pyContains, pySubscript, specFragment]
    cases subOf "choices".toList s.toList <;> simp
  | arr xs =>
    simp only [processChunk, pyContains, pySubscript, specFragment]
    cases xs.any (isStrEq "choices") <;> simp
  | obj fields =>
    cases hl : List.lookup "choices" fields with
    | none =>
      constructor
      · intro s hs
        simp [processChunk, pyContains, hl] at hs
      · intro _
        left
        simp [specFragment, hl]
    | some c =>
      cases c with
      | null => simp [processChunk, pyContains, pySubscript, hl, pyIndexZero]
      | bool b => simp [processChunk, pyContains, pySubscript, hl, pyIndexZero]
      | num n => simp [processChunk, pyContains, pySubscript, hl, pyIndexZero]
      | str s =>
        simp only [processChunk, pyContains, pySubscript, hl, pyIndexZero, Option.isSome_some]
        cases hse : s.isEmpty <;> simp [pyGet]
      | obj fs => simp [processChunk, pyContains, pySubscript, hl, pyIndexZero]
      | arr cs =>
        cases cs with
        | nil => simp [processChunk, pyContains, pySubscript, hl, pyIndexZero]
        | cons x rest =>
          cases x with
          | null => simp [processChunk, pyContains, pySubscript, hl, pyIndexZero, pyGet, specFragment]
          | bool b => simp [processChunk, pyContains, pySubscript, hl, pyIndexZero, pyGet, specFragment]
          | num n => simp [processChunk, pyContains, pySubscript, hl, pyIndexZero, pyGet, specFragment]
          | str s => simp [processChunk, pyContains, pySubscript, hl, pyIndexZero, pyGet, specFragment]
          | arr ys => simp [processChunk, pyContains, pySubscript, hl, pyIndexZero, pyGet, specFragment]
          | obj c0 =>
            cases hd : List.lookup "delta" c0 with
            | none =>
              constructor
              · intro s hs
                simp +decide [processChunk, pyContains, pySubscript, hl, pyIndexZero, pyGet, hd, jTruthy, List.lookup] at hs
              · intro _
                left
                simp [specFragment, hl, hd]
            | some d =>
              cases d with
              | null => simp [processChunk, pyContains, pySubscript, hl, pyIndexZero, pyGet, hd, specFragment]
              | bool b => simp [processChunk, pyContains, pySubscript, hl, pyIndexZero, pyGet, hd, specFragment]
              | num n => simp [processChunk, pyContains, pySubscript, hl, pyIndexZero, pyGet, hd, specFragment]
              | str s => simp [processChunk, pyContains, pySubscript, hl, pyIndexZero, pyGet, hd, specFragment]
              | arr ys => simp [processChunk, pyContains, pySubscript, hl, pyIndexZero, pyGet, hd, specFragment]
              | obj df =>
                cases hc : List.lookup "content" df with
                | none =>
                  constructor
                  · intro s hs
                    simp +decide [processChunk, pyContains, pySubscript, hl, pyIndexZero, pyGet, hd, hc, jTruthy, List.lookup] at hs
                  · intro _
                    left
                    simp [specFragment, hl, hd, hc]
                | some cv =>
                  cases cv with
                  | null =>
                    simp [processChunk, pyContains, pySubscript, hl, pyIndexZero, pyGet, hd, hc, jTruthy, specFragment]
                  | bool b =>
                    cases b <;>
                      simp [processChunk, pyContains, pySubscript, hl, pyIndexZero, pyGet, hd, hc, jTruthy, specFragment]
                  | num n =>
                    simp only [processChunk, pyContains, pySubscript, hl, pyIndexZero, pyGet, hd, hc, jTruthy, specFragment, Option.isSome_some, Option.getD_some]
                    cases hn : n != 0 <;> simp [specFragment, hl, hd, hc]
                  | arr ys =>
                    cases ys <;>
                      simp [processChunk, pyContains, pySubscript, hl, pyIndexZero, pyGet, hd, hc, jTruthy, specFragment]
                  | obj gs =>
                    cases gs <;>
                      simp [processChunk, pyContains, pySubscript, hl, pyIndexZero, pyGet, hd, hc, jTruthy, specFragment]
                  | str s2 =>
                    simp only [processChunk, pyContains, pySubscript, hl, pyIndexZero, pyGet, hd, hc, jTruthy, Option.isSome_some, Option.getD_some]
                    cases hse : s2.isEmpty with
                    | true =>
                      constructor
                      · intro s hs
                        simp at hs
                      · intro _
                        right
                        have : s2 = "" := (String.isEmpty_iff s2).mp hse
                        simp [specFragment, hl, hd, hc, this]
                    | false =>
                      constructor
                      · intro s hs
                        simp at hs
                        simp [specFragment, hl, hd, hc, hs]
                      · intro h
                        simp at h

lemma umsStreamGo_ok (lines : List StreamLine) : ∀ acc frags r,
    (umsStreamGo lines acc frags).2 = Except.ok r →
    r = acc ++ concatAll ((truncateAtDone lines).filterMap lineFragment) := by
  induction lines with
  | nil =>
    intro acc frags r h
    simp [umsStreamGo] at h
    simp [truncateAtDone, concatAll, ← h]
  | cons l rest ih =>
    intro acc frags r h
    cases l with
    | blank =>
      have := ih acc frags r (by simpa [umsStreamGo] using h)
      simpa [truncateAtDone, lineFragment, concatAll] using this
    | payload b body =>
      cases body with
      | done =>
        simp [umsStreamGo] at h
        simp [truncateAtDone, concatAll, ← h]
      | malformed =>
        have := ih acc frags r (by simpa [umsStreamGo] using h)
        simpa [truncateAtDone, lineFragment, concatAll] using this
      | json v =>
        cases hp : processChunk v with
        | error e => simp [umsStreamGo, hp] at h
        | ok o =>
          cases o with
          | none =>
            have hrec := ih acc frags r (by simpa [umsStreamGo, hp] using h)
            rcases (processChunk_spec v).2 hp with hsp | hsp
            · simpa [truncateAtDone, lineFragment, hsp, concatAll] using hrec
            · rw [hrec]
              simp [truncateAtDone, lineFragment, hsp, concatAll, String.empty_append]
          | some s =>
            have hrec := ih (acc ++ s) (s :: frags) r (by simpa [umsStreamGo, hp] using h)
            have hsp := (processChunk_spec v).1 s hp
            rw [hrec]
            simp [truncateAtDone, lineFragment, hsp, concatAll, String.append_assoc]

lemma chunkContent_spec (ch : SynthChunk) :
    (∀ s, chunkContent ch = some s → synthFragment ch = some s) ∧
    (chunkContent ch = none → synthFragment ch = none ∨ synthFragment ch = some "") := by
  obtain ⟨cs⟩ := ch
  cases cs with
  | nil => simp [chunkContent, synthFragment]
  | cons c rest =>
    obtain ⟨⟨co⟩⟩ := c
    cases co with
    | none => simp [chunkContent, synthFragment]
    | some s =>
      cases hse : s.isEmpty with
      | true =>
        have : s = "" := (String.isEmpty_iff s).mp hse
        simp [chunkContent, synthFragment, hse, this]
      | false =>
        simp [chunkContent, synthFragment, hse]

lemma finalStreamGo_concat (chunks : List SynthChunk) : ∀ acc frags,
    (finalStreamGo chunks acc frags).1 = acc ++ concatAll (chunks.filterMap synthFragment) := by
  induction chunks with
  | nil => intro acc frags; simp [finalStreamGo, concatAll]
  | cons ch rest ih =>
    intro acc frags
    cases hc : chunkContent ch with
    | none =>
      rcases (chunkContent_spec ch).2 hc with hsp | hsp
      · simp [finalStreamGo, hc, ih, hsp, concatAll]
      · simp [finalStreamGo, hc, ih, hsp, concatAll, String.empty_append]
    | some s =>
      have hsp := (chunkContent_spec ch).1 s hc
      simp [finalStreamGo, hc, ih, hsp, concatAll, String.append_assoc]

/-- C1: for every chat stream consumed by the stateful gateway, the accumulated
content it returns equals the exact concatenation, in arrival order, of all
content fragments (choices[0].delta.content of the parsed events) seen before
the [DONE] sentinel or end-of-stream; fragments after [DONE] are never
included, and the same concatenation property holds for the synthesis stage
streamed model call. -/
theorem claim_C1_stream_concatenation (lines : List StreamLine)
    (chunks : List SynthChunk) (r : String)
    (h : (callUmsAgent lines).2 = Except.ok r) :
    r = concatAll ((truncateAtDone lines).filterMap lineFragment) ∧
    (finalStream chunks).1 = concatAll (chunks.filterMap synthFragment) := by
  constructor
  · have := umsStreamGo_ok lines "" [] r h
    simpa [String.empty_append] using this
  · simpa [String.empty_append] using finalStreamGo_concat chunks "" []

/-- Witness for C1 at the scenario stream of the specification. -/
theorem claim_C1_stream_concatenation_witness :
    "Hello" = concatAll ((truncateAtDone demoLines).filterMap lineFragment) ∧
    (finalStream demoChunks).1 = concatAll (demoChunks.filterMap synthFragment) :=
  claim_C1_stream_concatenation demoLines demoChunks "Hello" (by rfl)

lemma nonContent_ok (v : JVal) (h : nonContentShape v = true) :
    processChunk v = Except.ok none := by
  cases v with
  | null => simp [nonContentShape] at h
  | bool b => simp [nonContentShape] at h
  | num n => simp [nonContentShape] at h
  | str s =>
    simp only [nonContentShape, Bool.not_eq_true'] at h
    simp at h
    simp [processChunk, pyContains, h]
  | arr xs =>
    simp only [nonContentShape, Bool.not_eq_true'] at h
    simp [processChunk, pyContains, h]
  | obj fields =>
    cases hl : List.lookup "choices" fields with
    | none => simp [processChunk, pyContains, hl]
    | some c =>
      cases c with
      | null => simp [nonContentShape, hl] at h
      | bool b => simp [nonContentShape, hl] at h
      | num n => simp [nonContentShape, hl] at h
      | str s => simp [nonContentShape, hl] at h
      | obj fs => simp [nonContentShape, hl] at h
      | arr cs =>
        cases cs with
        | nil => simp [nonContentShape, hl] at h
        | cons x rest =>
          cases x with
          | null => simp [nonContentShape, hl] at h
          | bool b => simp [nonContentShape, hl] at h
          | num n => simp [nonContentShape, hl] at h
          | str s => simp [nonContentShape, hl] at h
          | arr ys => simp [nonContentShape, hl] at h
          | obj c0 =>
            cases hd : List.lookup "delta" c0 with
            | none =>
              simp +decide [processChunk, pyContains, pySubscript, hl, pyIndexZero,
                pyGet, hd, jTruthy, List.lookup]
            | some d =>
              cases d with
              | null => simp [nonContentShape, hl, hd] at h
              | bool b2 => simp [nonContentShape, hl, hd] at h
              | num n2 => simp [nonContentShape, hl, hd] at h
              | str s2 => simp [nonContentShape, hl, hd] at h
              | arr ys => simp [nonContentShape, hl, hd] at h
              | obj df =>
                cases hc : List.lookup "content" df with
                | none =>
                  simp +decide [processChunk, pyContains, pySubscript, hl, pyIndexZero,
                    pyGet, hd, hc, jTruthy, List.lookup]
                | some cv =>
                  cases cv with
                  | null =>
                    simp [processChunk, pyContains, pySubscript, hl, pyIndexZero,
                      pyGet, hd, hc, jTruthy]
                  | bool b2 =>
                    simp [nonContentShape, hl, hd, hc] at h
                    simp [processChunk, pyContains, pySubscript, hl, pyIndexZero,
                      pyGet, hd, hc, jTruthy, h]
                  | num n2 =>
                    simp [nonContentShape, hl, hd, hc] at h
                    simp [processChunk, pyContains, pySubscript, hl, pyIndexZero,
                      pyGet, hd, hc, jTruthy, h]
                  | str s2 =>
                    simp [nonContentShape, hl, hd, hc] at h
                    simp +decide [processChunk, pyContains, pySubscript, hl, pyIndexZero,
                      pyGet, hd, hc, jTruthy, h]
                  | arr ys =>
                    simp [nonContentShape, hl, hd, hc] at h
                    simp [processChunk, pyContains, pySubscript, hl, pyIndexZero,
                      pyGet, hd, hc, jTruthy, h]
                  | obj gs =>
                    simp [nonContentShape, hl, hd, hc] at h
                    simp [processChunk, pyContains, pySubscript, hl, pyIndexZero,
                      pyGet, hd, hc, jTruthy, h]

lemma skip_step (l : StreamLine) (h : skippableLine l) (post : List StreamLine)
    (acc : String) (frags : List String) :
    umsStreamGo (l :: post) acc frags = umsStreamGo post acc frags := by
  rcases h with rfl | ⟨b, rfl⟩ | ⟨b, v, rfl, hv⟩
  · simp [umsStreamGo]
  · simp [umsStreamGo]
  · simp [umsStreamGo, nonContent_ok v hv]

lemma go_skip (pre : List StreamLine) (l : StreamLine) (h : skippableLine l)
    (post : List StreamLine) : ∀ acc frags,
    umsStreamGo (pre ++ l :: post) acc frags = umsStreamGo (pre ++ post) acc frags := by
  induction pre with
  | nil => intro acc frags; simpa using skip_step l h post acc frags
  | cons p rest ih =>
    intro acc frags
    cases p with
    | blank => simpa [umsStreamGo] using ih acc frags
    | payload b body =>
      cases body with
      | done => simp [umsStreamGo]
      | malformed => simpa [umsStreamGo] using ih acc frags
      | json v =>
        cases hp : processChunk v with
        | error e => simp [umsStreamGo, hp]
        | ok o =>
          cases o with
          | none => simpa [umsStreamGo, hp] using ih acc frags
          | some s => simpa [umsStreamGo, hp] using ih (acc ++ s) (s :: frags)

/-- C4 counterexample: a parsed JSON event that is not a content fragment
event (a choices list without a content delta, namely an empty choices list)
aborts the stream with an uncaught IndexError rather than being skipped. -/
theorem claim_C4_counterexample :
    (callUmsAgent [StreamLine.payload true
        (Payload.json (JVal.obj [("choices", JVal.arr [])]))]).2
      = Except.error PyErr.indexError := by rfl

/-- C4 amended: every blank line, every line that fails to parse as JSON, and
every parsed JSON event of a non-content shape whose choices[0].delta access
cannot fault (an object without a choices key such as a session id echo, or
one whose choices[0] is an object carrying no truthy string content)
contributes nothing to the accumulated content and never aborts the stream:
deleting the line leaves the entire result of the streaming call unchanged. -/
theorem claim_C4_amended (pre post : List StreamLine) (l : StreamLine)
    (h : skippableLine l) :
    callUmsAgent (pre ++ l :: post) = callUmsAgent (pre ++ post) := by
  unfold callUmsAgent
  exact go_skip pre l h post "" []

/-- Witness for the amended C4 at the scenario stream: the session id echo is
skipped and the trailing malformed line is skipped. -/
theorem claim_C4_amended_witness :
    callUmsAgent [demoLine1, demoLine2, demoLine3] = callUmsAgent [demoLine1, demoLine2] :=
  claim_C4_amended [demoLine1, demoLine2] [] demoLine3
    (Or.inr (Or.inr ⟨true, JVal.obj [("conversation_id", JVal.str "abc")], rfl, by rfl⟩))

lemma head_filterMap_isSome {α β : Type} (f : α → Option β) (l : List α) :
    ((l.filterMap f).head?).isSome = l.any (fun a => (f a).isSome) := by
  induction l with
  | nil => simp
  | cons a rest ih =>
    cases hf : f a
    · simpa [List.filterMap_cons, hf] using ih
    · simp [List.filterMap_cons, hf]

/-- The conversation resolution scan returns the first (earliest) session key
hit of the history. -/
lemma get_eq_head (messages : List DialMessage) :
    get_ums_conversation_id messages = (messages.filterMap sessionKeyOf).head? := by
  induction messages with
  | nil => simp [get_ums_conversation_id]
  | cons m rest ih =>
    by_cases hr : m.role = Role.assistant
    · cases hcc : m.custom_content with
      | none => simp [get_ums_conversation_id, sessionKeyOf, hr, hcc, ih, List.filterMap_cons]
      | some cc =>
        cases hst : cc.state with
        | none =>
          simp [get_ums_conversation_id, sessionKeyOf, hr, hcc, hst, ih, List.filterMap_cons]
        | some st =>
          cases st with
          | nil =>
            simp [get_ums_conversation_id, sessionKeyOf, hr, hcc, hst, ih, List.filterMap_cons]
          | cons p ps =>
            cases hlk : List.lookup UMS_KEY (p :: ps) with
            | none =>
              simp [get_ums_conversation_id, sessionKeyOf, hr, hcc, hst, hlk, ih,
                List.filterMap_cons]
            | some v =>
              simp [get_ums_conversation_id, sessionKeyOf, hr, hcc, hst, hlk,
                List.filterMap_cons]
    · simp [get_ums_conversation_id, sessionKeyOf, hr, ih, List.filterMap_cons]

lemma ums_response_resolved (endpoint : String) (env : UMSEnv)
    (messages : List DialMessage) (ai : Option String) (cid : String)
    (h : get_ums_conversation_id messages = some cid)
    (last : DialMessage) (hl : messages.getLast? = some last) :
    ums_response endpoint env messages ai =
      (Effect.chatCall (chatUrl endpoint cid)
         (augmentInstructions (last.content.getD "") ai) ::
       (callUmsAgent env.chatStream).1.map Effect.stageAppend,
       umsStreamOutcome env) := by
  unfold ums_response umsStreamOutcome
  rw [h, hl]
  cases h2 : (callUmsAgent env.chatStream).2 <;> simp [h2]

lemma ums_response_fresh (endpoint : String) (env : UMSEnv)
    (messages : List DialMessage) (ai : Option String)
    (h : get_ums_conversation_id messages = none)
    (last : DialMessage) (hl : messages.getLast? = some last) :
    ums_response endpoint env messages ai =
      (Effect.createConversation ::
       Effect.setState [(UMS_KEY, env.newConversationId)] ::
       Effect.chatCall (chatUrl endpoint env.newConversationId)
         (augmentInstructions (last.content.getD "") ai) ::
       (callUmsAgent env.chatStream).1.map Effect.stageAppend,
       umsStreamOutcome env) := by
  unfold ums_response umsStreamOutcome
  rw [h, hl]
  cases h2 : (callUmsAgent env.chatStream).2 <;> simp [h2]

lemma ums_response_empty (endpoint : String) (env : UMSEnv) (ai : Option String) :
    ums_response endpoint env [] ai =
      ([Effect.createConversation,
        Effect.setState [(UMS_KEY, env.newConversationId)]],
       Except.error PyErr.indexError) := by
  rfl

/-- C3 counterexample: on a history with two assistant messages carrying the
tracked key, the resolution returns the id of the first (oldest) one, not the
id of the most recent one, falsifying the claim that the most recent match
wins. -/
theorem claim_C3_counterexample :
    get_ums_conversation_id staleHistory = some "id-first" ∧
    (staleHistory.filterMap sessionKeyOf).getLast? = some "id-second" ∧
    get_ums_conversation_id staleHistory ≠
      (staleHistory.filterMap sessionKeyOf).getLast? := by
  refine ⟨by rfl, by rfl, ?_⟩
  intro h
  simp [staleHistory, get_ums_conversation_id, sessionKeyOf, UMS_KEY, List.lookup] at h

/-- C3 amended: for every request whose history contains at least one
assistant message carrying the tracked session key in its persisted state,
the conversation resolution returns the session id of the earliest such
assistant message: the first match in scan order wins when several assistant
messages carry the key. -/
theorem claim_C3_resolution_first_match (messages : List DialMessage) :
    get_ums_conversation_id messages = (messages.filterMap sessionKeyOf).head? :=
  get_eq_head messages

lemma filter_setState_appends (l : List String) :
    (l.map Effect.stageAppend).filter Effect.isSetState = [] := by
  induction l with
  | nil => rfl
  | cons s rest ih => simp [Effect.isSetState, ih]

/-- C2: for every stateful-agent run (non-empty history) with no assistant
message carrying the tracked session key, exactly one session-creation call is
issued before the chat call and its returned id is used for the chat call;
with prior session state, zero session-creation calls occur and the prior id
is used verbatim in the chat endpoint URL. The first conjunct ties the
resolution to the presence of the key in history. -/
theorem claim_C2_session_lifecycle (endpoint : String) (env : UMSEnv)
    (messages : List DialMessage) (ai : Option String)
    (last : DialMessage) (hl : messages.getLast? = some last) :
    ((get_ums_conversation_id messages).isSome = historyHasSessionKey messages) ∧
    (historyHasSessionKey messages = false →
      (ums_response endpoint env messages ai).1 =
        Effect.createConversation ::
        Effect.setState [(UMS_KEY, env.newConversationId)] ::
        Effect.chatCall (chatUrl endpoint env.newConversationId)
          (augmentInstructions (last.content.getD "") ai) ::
        (callUmsAgent env.chatStream).1.map Effect.stageAppend) ∧
    (∀ cid, get_ums_conversation_id messages = some cid →
      (ums_response endpoint env messages ai).1 =
        Effect.chatCall (chatUrl endpoint cid)
          (augmentInstructions (last.content.getD "") ai) ::
        (callUmsAgent env.chatStream).1.map Effect.stageAppend) := by
  have hiff : (get_ums_conversation_id messages).isSome = historyHasSessionKey messages := by
    rw [get_eq_head]
    exact head_filterMap_isSome sessionKeyOf messages
  refine ⟨hiff, ?_, ?_⟩
  · intro hno
    have hg : get_ums_conversation_id messages = none := by
      cases hgo : get_ums_conversation_id messages with
      | none => rfl
      | some c =>
        rw [hgo] at hiff
        rw [hno] at hiff
        simp at hiff
    rw [ums_response_fresh endpoint env messages ai hg last hl]
  · intro cid hc
    rw [ums_response_resolved endpoint env messages ai cid hc last hl]

/-- Witness for C2 on a first-turn run: one creation call, its id persisted
and used in the chat URL, the creation preceding the chat call. -/
theorem claim_C2_session_lifecycle_witness :
    (ums_response "http://u" ⟨"new-id", []⟩ [⟨Role.user, some "hi", none⟩] none).1 =
      [Effect.createConversation, Effect.setState [(UMS_KEY, "new-id")],
       Effect.chatCall (chatUrl "http://u" "new-id") "hi"] := by
  have h := (claim_C2_session_lifecycle "http://u" ⟨"new-id", []⟩
    [⟨Role.user, some "hi", none⟩] none ⟨Role.user, some "hi", none⟩ rfl).2.1 (by rfl)
  simpa [callUmsAgent, umsStreamGo, augmentInstructions] using h

/-- C9: the stateful gateway writes session state to the choice exactly when a
new session is created: a run that resolves a prior id performs no state
write; a first-turn run performs the single state write, binding the tracked
key to the new id, before the chat call; and every effect of the gateway is a
creation call, a state write, a chat call, or a stage content append. -/
theorem claim_C9_state_write_frame (endpoint : String) (env : UMSEnv)
    (messages : List DialMessage) (ai : Option String) :
    (∀ cid, get_ums_conversation_id messages = some cid →
      ((ums_response endpoint env messages ai).1.filter Effect.isSetState) = []) ∧
    (get_ums_conversation_id messages = none →
      ((ums_response endpoint env messages ai).1.filter Effect.isSetState) =
        [Effect.setState [(UMS_KEY, env.newConversationId)]] ∧
      ∃ t, (ums_response endpoint env messages ai).1 =
          Effect.createConversation ::
          Effect.setState [(UMS_KEY, env.newConversationId)] :: t ∧
          ∀ u c, Effect.chatCall u c ∈ (ums_response endpoint env messages ai).1 →
            Effect.chatCall u c ∈ t) ∧
    (∀ e, e ∈ (ums_response endpoint env messages ai).1 →
      e = Effect.createConversation ∨ (∃ st, e = Effect.setState st) ∨
      (∃ u c, e = Effect.chatCall u c) ∨ (∃ s, e = Effect.stageAppend s)) := by
  cases hl : messages.getLast? with
  | none =>
    have hnil : messages = [] := List.getLast?_eq_none_iff.mp hl
    subst hnil
    refine ⟨?_, ?_, ?_⟩
    · intro cid hc
      simp [get_ums_conversation_id] at hc
    · intro _
      refine ⟨by rw [ums_response_empty]; rfl, [], ?_, ?_⟩
      · rw [ums_response_empty]
      · intro u c hmem
        rw [ums_response_empty] at hmem
        simp at hmem
    · intro e he
      rw [ums_response_empty] at he
      simp at he
      rcases he with rfl | rfl
      · exact Or.inl rfl
      · exact Or.inr (Or.inl ⟨_, rfl⟩)
  | some last =>
    refine ⟨?_, ?_, ?_⟩
    · intro cid hc
      rw [ums_response_resolved endpoint env messages ai cid hc last hl]
      simp [Effect.isSetState, filter_setState_appends]
    · intro hg
      rw [ums_response_fresh endpoint env messages ai hg last hl]
      refine ⟨by simp [Effect.isSetState, filter_setState_appends], _, rfl, ?_⟩
      intro u c hmem
      simp at hmem
      simpa using hmem
    · intro e he
      cases hg : get_ums_conversation_id messages with
      | none =>
        rw [ums_response_fresh endpoint env messages ai hg last hl] at he
        simp [List.mem_cons, List.mem_map] at he
        rcases he with rfl | rfl | rfl | ⟨s, _, rfl⟩
        · exact Or.inl rfl
        · exact Or.inr (Or.inl ⟨_, rfl⟩)
        · exact Or.inr (Or.inr (Or.inl ⟨_, _, rfl⟩))
        · exact Or.inr (Or.inr (Or.inr ⟨_, rfl⟩))
      | some cid =>
        rw [ums_response_resolved endpoint env messages ai cid hg last hl] at he
        simp [List.mem_cons, List.mem_map] at he
        rcases he with rfl | ⟨s, _, rfl⟩
        · exact Or.inr (Or.inr (Or.inl ⟨_, _, rfl⟩))
        · exact Or.inr (Or.inr (Or.inr ⟨_, rfl⟩))

/-- Witness for C9 on a first-turn run: exactly one state write occurs and it
binds the tracked key to the newly created id. -/
theorem claim_C9_state_write_frame_witness :
    ((ums_response "http://u" ⟨"new-id", []⟩ [⟨Role.user, some "hi", none⟩] none).1.filter
      Effect.isSetState) = [Effect.setState [(UMS_KEY, "new-id")]] :=
  ((claim_C9_state_write_frame "http://u" ⟨"new-id", []⟩
    [⟨Role.user, some "hi", none⟩] none).2.1 (by rfl)).1

/-- C10: the stateful gateway presupposes a non-empty history: with at least
one message the outgoing chat content is the last message text (absent
content read as the empty string, then augmented with any instructions), and
with an empty message list the run fails on the unguarded last-element access
with an IndexError instead of returning a message. -/
theorem claim_C10_last_message_access (endpoint : String) (env : UMSEnv)
    (ai : Option String) (messages : List DialMessage) :
    (messages = [] →
      (ums_response endpoint env messages ai).2 = Except.error PyErr.indexError) ∧
    (∀ last, messages.getLast? = some last →
      Effect.chatCall
        (chatUrl endpoint ((get_ums_conversation_id messages).getD env.newConversationId))
        (augmentInstructions (last.content.getD "") ai)
        ∈ (ums_response endpoint env messages ai).1) := by
  constructor
  · rintro rfl
    rw [ums_response_empty]
  · intro last hl
    cases hg : get_ums_conversation_id messages with
    | none =>
      rw [ums_response_fresh endpoint env messages ai hg last hl]
      simp
    | some cid =>
      rw [ums_response_resolved endpoint env messages ai cid hg last hl]
      simp

/-- Witness for C10: the empty history faults with an IndexError, and a
one-message history sends the last message text as the chat content. -/
theorem claim_C10_last_message_access_witness :
    (ums_response "http://u" ⟨"new-id", []⟩ [] none).2 = Except.error PyErr.indexError ∧
    Effect.chatCall (chatUrl "http://u" "new-id") "hi" ∈
      (ums_response "http://u" ⟨"new-id", []⟩ [⟨Role.user, some "hi", none⟩] none).1 := by
  constructor
  · exact (claim_C10_last_message_access "http://u" ⟨"new-id", []⟩ none []).1 rfl
  · have h := (claim_C10_last_message_access "http://u" ⟨"new-id", []⟩ none
      [⟨Role.user, some "hi", none⟩]).2 ⟨Role.user, some "hi", none⟩ rfl
    simpa [get_ums_conversation_id, augmentInstructions] using h

lemma prepareLoop_get (messages : List DialMessage) :
    ∀ (i : Nat) (m : DialMessage), messages[i]? = some m →
    (prepareLoop messages)[i]? =
      some (if m.role = Role.user ∧ m.custom_content ≠ none then
              ⟨Role.user, some (m.content.getD ""), none⟩
            else ⟨m.role, m.content, m.custom_content⟩) := by
  induction messages with
  | nil => intro i m h; simp at h
  | cons x rest ih =>
    intro i m h
    cases i with
    | zero =>
      simp at h
      subst h
      simp [prepareLoop]
    | succ j =>
      simp at h
      simpa [prepareLoop] using ih j m h

lemma prepareLoop_length (messages : List DialMessage) :
    (prepareLoop messages).length = messages.length := by
  induction messages with
  | nil => rfl
  | cons x rest ih => simp [prepareLoop, ih]

/-- C7 counterexample: a message whose content field is present but empty is
forwarded with that field still present (the serialization omits only absent
fields), falsifying the claim that empty fields are omitted. -/
theorem claim_C7_counterexample :
    prepare_messages [emptyContentMsg] "p" =
      [⟨Role.system, some "p", none⟩, ⟨Role.assistant, some "", none⟩] ∧
    ((prepare_messages [emptyContentMsg] "p")[1]?).bind (fun e => e.content) = some "" := by
  constructor
  · rfl
  · rfl

/-- C7 amended: for every request and system prompt, the adapter output has
the system entry with the given prompt as its first element regardless of
history order or length; every user message carrying custom content is
reduced to its plain text content (custom content, hence attachments and
state, never appears); every other message is forwarded verbatim with its
absent (none) fields omitted, while present-but-empty fields are kept; and
history order and length are preserved. -/
theorem claim_C7_message_adapter (messages : List DialMessage) (prompt : String) :
    (prepare_messages messages prompt).length = messages.length + 1 ∧
    (prepare_messages messages prompt).head? = some ⟨Role.system, some prompt, none⟩ ∧
    (∀ (i : Nat) (m : DialMessage), messages[i]? = some m →
      (prepare_messages messages prompt)[i + 1]? =
        some (if m.role = Role.user ∧ m.custom_content ≠ none then
                ⟨Role.user, some (m.content.getD ""), none⟩
              else ⟨m.role, m.content, m.custom_content⟩)) := by
  refine ⟨?_, rfl, ?_⟩
  · simp [prepare_messages, prepareLoop_length]
  · intro i m h
    have := prepareLoop_get messages i m h
    simpa [prepare_messages] using this

/-- Witness for the amended C7: a history with a custom-content user message
and a plain assistant message is adapted entrywise. -/
theorem claim_C7_message_adapter_witness :
    (prepare_messages [⟨Role.user, some "hi", some ⟨none, true⟩⟩] "p").length = 2 ∧
    (prepare_messages [⟨Role.user, some "hi", some ⟨none, true⟩⟩] "p").head? =
      some ⟨Role.system, some "p", none⟩ ∧
    (prepare_messages [⟨Role.user, some "hi", some ⟨none, true⟩⟩] "p")[1]? =
      some ⟨Role.user, some "hi", none⟩ := by
  have h := claim_C7_message_adapter [⟨Role.user, some "hi", some ⟨none, true⟩⟩] "p"
  refine ⟨h.1, h.2.1, ?_⟩
  have h2 := h.2.2 0 ⟨Role.user, some "hi", some ⟨none, true⟩⟩ (by rfl)
  simpa using h2

lemma finalStreamGo_frags (chunks : List SynthChunk) : ∀ acc frags,
    (finalStreamGo chunks acc frags).2 = frags.reverse ++ chunks.filterMap chunkContent := by
  induction chunks with
  | nil => intro acc frags; simp [finalStreamGo]
  | cons ch rest ih =>
    intro acc frags
    cases hc : chunkContent ch with
    | none => simp [finalStreamGo, hc, ih, List.filterMap_cons]
    | some s => simp [finalStreamGo, hc, ih, List.filterMap_cons]

lemma finalStreamGo_acc (chunks : List SynthChunk) : ∀ acc frags,
    (finalStreamGo chunks acc frags).1 = acc ++ concatAll (chunks.filterMap chunkContent) := by
  induction chunks with
  | nil => intro acc frags; simp [finalStreamGo, concatAll]
  | cons ch rest ih =>
    intro acc frags
    cases hc : chunkContent ch with
    | none => simp [finalStreamGo, hc, ih, List.filterMap_cons, concatAll]
    | some s => simp [finalStreamGo, hc, ih, List.filterMap_cons, concatAll, String.append_assoc]

/-- C8: for every synthesis run, the last adapted message content is replaced
by the two-section composite (the original content under the Original User
Request header, then the agent raw answer under the Agent Response header),
all other adapted messages are unchanged, and the returned assistant message
content equals the full accumulation of the fragments streamed to the
caller-facing channel. -/
theorem claim_C8_synthesis_stage (messages : List DialMessage)
    (agent_message : DialMessage) (chunks : List SynthChunk) :
    (∀ last, (prepare_messages messages FINAL_RESPONSE_SYSTEM_PROMPT).getLast? = some last →
      (final_response messages agent_message chunks).1 =
        (prepare_messages messages FINAL_RESPONSE_SYSTEM_PROMPT).dropLast ++
          [{ last with content := some ("## Original User Request\n" ++
              last.content.getD "" ++ "\n\n" ++ "## Agent Response\n" ++
              agent_message.content.getD "") }]) ∧
    (final_response messages agent_message chunks).2.2 =
      ⟨Role.assistant,
       some (concatAll (final_response messages agent_message chunks).2.1), none⟩ := by
  constructor
  · intro last hl
    simp only [final_response]
    rw [hl]
    simp [compositeContent, String.append_assoc]
  · have h1 := finalStreamGo_acc chunks "" []
    have h2 := finalStreamGo_frags chunks "" []
    simp [final_response, finalStream, h1, h2, String.empty_append]

/-- Witness for C8 on a one-message history and a two-fragment synthesis
stream. -/
theorem claim_C8_synthesis_stage_witness :
    (final_response [⟨Role.user, some "hi", none⟩] ⟨Role.assistant, some "ANS", none⟩
        demoChunks).1 =
      (prepare_messages [⟨Role.user, some "hi", none⟩] FINAL_RESPONSE_SYSTEM_PROMPT).dropLast ++
        [⟨Role.user,
          some ("## Original User Request\n" ++ "hi" ++ "\n\n" ++ "## Agent Response\n" ++ "ANS"),
          none⟩] ∧
    (final_response [⟨Role.user, some "hi", none⟩] ⟨Role.assistant, some "ANS", none⟩
        demoChunks).2.2 =
      ⟨Role.assistant,
       some (concatAll (final_response [⟨Role.user, some "hi", none⟩]
         ⟨Role.assistant, some "ANS", none⟩ demoChunks).2.1), none⟩ := by
  have h := claim_C8_synthesis_stage [⟨Role.user, some "hi", none⟩]
    ⟨Role.assistant, some "ANS", none⟩ demoChunks
  refine ⟨?_, h.2⟩
  have h1 := h.1 ⟨Role.user, some "hi", none⟩ (by rfl)
  simpa using h1

/-- C6: for every run in which the classifier model call returns text that is
not valid JSON or does not validate against the decision schema, the run
aborts with that error before any agent gateway is invoked and before any
session-creation or chat call is made: the whole effect trace is the stage
opening and the single classifier call, so no default route is chosen and no
retry occurs. -/
theorem claim_C6_classifier_failure_aborts (umsEndpoint : String) (env : CoordEnv)
    (messages : List DialMessage) (e : PyErr)
    (h : env.classifier = ClassifierOutcome.failure e) :
    handle_request umsEndpoint env messages =
      ([Effect.stageOpen coordStageLabel, Effect.classifierCall], Except.error e) := by
  unfold handle_request
  rw [h]

/-- Witness for C6 at a concrete run whose classifier returns non-JSON text. -/
theorem claim_C6_classifier_failure_aborts_witness :
    handle_request "http://u" failEnv [⟨Role.user, some "hi", none⟩] =
      ([Effect.stageOpen coordStageLabel, Effect.classifierCall],
       Except.error PyErr.jsonDecodeError) :=
  claim_C6_classifier_failure_aborts "http://u" failEnv [⟨Role.user, some "hi", none⟩]
    PyErr.jsonDecodeError rfl

/-- C5 evaluated at the failing input: on a run whose classifier call raises,
the coordination stage has been opened but the trace holds no close of it
when the error propagates, so an opened log surface is not closed before the
run ends, contradicting the claimed invariant. -/
theorem claim_C5_coordination_stage_left_open :
    Effect.stageOpen coordStageLabel ∈
      (handle_request "http://u" failEnv [⟨Role.user, some "hi", none⟩]).1 ∧
    Effect.stageClose coordStageLabel ∉
      (handle_request "http://u" failEnv [⟨Role.user, some "hi", none⟩]).1 ∧
    (handle_request "http://u" failEnv [⟨Role.user, some "hi", none⟩]).2 =
      Except.error PyErr.jsonDecodeError := by
  refine ⟨?_, ?_, rfl⟩
  · show Effect.stageOpen coordStageLabel ∈
      [Effect.stageOpen coordStageLabel, Effect.classifierCall]
    simp
  · show Effect.stageClose coordStageLabel ∉
      [Effect.stageOpen coordStageLabel, Effect.classifierCall]
    simp

end MAS


